import Mathlib

/-!
Shallow embedding of the FiNews24 pipeline (`finance_news_bot.py`) and proofs
about its specified behaviour.

The Python agents are translated into pure Lean functions.  External library
calls that the program treats as black boxes (dateutil parsing plus timezone
localization, BeautifulSoup text extraction, urlparse netloc extraction, the
OpenAI backends, the Telegram and Twitter transports, the wall clock, and file
write success) are modelled as explicit oracle parameters, so that every claim
is quantified over their behaviour.  Timestamps are integers counting
microseconds (the resolution of Python `datetime`), and machine-level hashing
(`hashlib.sha256`) is implemented bit-faithfully on `Nat` values reduced
modulo 2^32.
-/

set_option maxRecDepth 8000

namespace FiNews

/-- Python `a or b` on strings, where `None` and `""` are both falsy and are
identified with `""` in the model. -/
def pyOrS (a b : String) : String := if a = "" then b else a

/-- Python `s[:n]` for a nonnegative bound: the first `n` characters. -/
def pyTake (s : String) (n : Nat) : String := String.mk (s.data.take n)

/-- Python `s[:k]` for a possibly negative bound `k` (a negative bound counts
from the end of the string, clamped at zero). -/
def pySliceTo (s : String) (k : Int) : String :=
  if 0 ≤ k then pyTake s k.toNat
  else String.mk (s.data.take (s.data.length - (-k).toNat))

/-- Whitespace characters recognized by Python `str.strip` / `str.split`. -/
def isSpaceChar (c : Char) : Bool :=
  c = ' ' || c = '\t' || c = '\n' || c = '\r' || c.toNat = 11 || c.toNat = 12

/-- Python `str.strip()`: drop leading and trailing whitespace. -/
def stripStr (s : String) : String :=
  String.mk (((s.data.dropWhile isSpaceChar).reverse.dropWhile isSpaceChar).reverse)

/-- Python `str.lower()` (ASCII-adequate model via `Char.toLower`). -/
def lowerStr (s : String) : String := String.mk (s.data.map Char.toLower)

/-- Python `sep.join(parts)`. -/
def joinSep (sep : String) : List String → String
  | [] => ""
  | [x] => x
  | x :: y :: rest => x ++ sep ++ joinSep sep (y :: rest)

/-- Python `s.split()` with no argument: split on whitespace runs, dropping
empty pieces. -/
def splitWords (s : String) : List String :=
  (s.split (fun c => isSpaceChar c)).filter (fun p => p != "")

/-- Whether the first list is an initial segment of the second. -/
def matchesAt : List Char → List Char → Bool
  | [], _ => true
  | _ :: _, [] => false
  | a :: as, b :: bs => a = b && matchesAt as bs

/-- Helper for `inStr`: does `nd` occur in some suffix of the second list? -/
def inStrGo (nd : List Char) : List Char → Bool
  | [] => matchesAt nd []
  | c :: rest => matchesAt nd (c :: rest) || inStrGo nd rest

/-- Python `needle in hay` on strings (substring containment). -/
def inStr (needle hay : String) : Bool := inStrGo needle.data hay.data

/-! SHA-256, exactly as computed by `hashlib.sha256(...).hexdigest()`, over a
list of byte values.  Word arithmetic is `Nat` reduced modulo 2^32. -/

/-- Reduce a natural number to a 32-bit word. -/
def w32 (n : Nat) : Nat := n % 4294967296

/-- Rotate a 32-bit word right by `n` bits. -/
def rotr32 (x n : Nat) : Nat := w32 ((x >>> n) ||| (x <<< (32 - n)))

/-- SHA-256 big sigma 0. -/
def sigBig0 (x : Nat) : Nat := rotr32 x 2 ^^^ rotr32 x 13 ^^^ rotr32 x 22

/-- SHA-256 big sigma 1. -/
def sigBig1 (x : Nat) : Nat := rotr32 x 6 ^^^ rotr32 x 11 ^^^ rotr32 x 25

/-- SHA-256 small sigma 0. -/
def sigSml0 (x : Nat) : Nat := rotr32 x 7 ^^^ rotr32 x 18 ^^^ (x >>> 3)

/-- SHA-256 small sigma 1. -/
def sigSml1 (x : Nat) : Nat := rotr32 x 17 ^^^ rotr32 x 19 ^^^ (x >>> 10)

/-- SHA-256 choice function. -/
def chf (x y z : Nat) : Nat := (x &&& y) ^^^ ((x ^^^ 4294967295) &&& z)

/-- SHA-256 majority function. -/
def majf (x y z : Nat) : Nat := (x &&& y) ^^^ (x &&& z) ^^^ (y &&& z)

/-- The 64 SHA-256 round constants of FIPS 180-4, written in decimal. -/
def shaK : List Nat := [
  1116352408, 1899447441, 3049323471, 3921009573, 961987163,
  1508970993, 2453635748, 2870763221, 3624381080, 310598401,
  607225278, 1426881987, 1925078388, 2162078206, 2614888103,
  3248222580, 3835390401, 4022224774, 264347078, 604807628,
  770255983, 1249150122, 1555081692, 1996064986, 2554220882,
  2821834349, 2952996808, 3210313671, 3336571891, 3584528711,
  113926993, 338241895, 666307205, 773529912, 1294757372,
  1396182291, 1695183700, 1986661051, 2177026350, 2456956037,
  2730485921, 2820302411, 3259730800, 3345764771, 3516065817,
  3600352804, 4094571909, 275423344, 430227734, 506948616,
  659060556, 883997877, 958139571, 1322822218, 1537002063,
  1747873779, 1955562222, 2024104815, 2227730452, 2361852424,
  2428436474, 2756734187, 3204031479, 3329325298]

/-- The eight 32-bit working registers of the SHA-256 compression function. -/
structure H8 where
  a : Nat
  b : Nat
  c : Nat
  d : Nat
  e : Nat
  f : Nat
  g : Nat
  h : Nat
deriving DecidableEq

/-- The SHA-256 initial hash value, in decimal. -/
def h0 : H8 :=
  ⟨1779033703, 3144134277, 1013904242, 2773480762,
   1359893119, 2600822924, 528734635, 1541459225⟩

/-- Extend the 16-word message block by `k` further schedule words. -/
def extendW (w : List Nat) : Nat → List Nat
  | 0 => w
  | k+1 =>
    let n := w.length
    let nw := w32 (sigSml1 (w.getD (n - 2) 0) + w.getD (n - 7) 0 +
                   sigSml0 (w.getD (n - 15) 0) + w.getD (n - 16) 0)
    extendW (w ++ [nw]) k

/-- One SHA-256 round, consuming a `(constant, schedule-word)` pair. -/
def roundStep (st : H8) (kw : Nat × Nat) : H8 :=
  let t1 := w32 (st.h + sigBig1 st.e + chf st.e st.f st.g + kw.1 + kw.2)
  let t2 := w32 (sigBig0 st.a + majf st.a st.b st.c)
  ⟨w32 (t1 + t2), st.a, st.b, st.c, w32 (st.d + t1), st.e, st.f, st.g⟩

/-- Compress one 16-word block into the chaining state. -/
def compressBlock (st : H8) (ws : List Nat) : H8 :=
  let w := extendW ws 48
  let r := (shaK.zip w).foldl roundStep st
  ⟨w32 (st.a + r.a), w32 (st.b + r.b), w32 (st.c + r.c), w32 (st.d + r.d),
   w32 (st.e + r.e), w32 (st.f + r.f), w32 (st.g + r.g), w32 (st.h + r.h)⟩

/-- Group bytes into big-endian 32-bit words. -/
def bytesToWords : List Nat → List Nat
  | b0 :: b1 :: b2 :: b3 :: rest => (b0 <<< 24 ||| b1 <<< 16 ||| b2 <<< 8 ||| b3) :: bytesToWords rest
  | _ => []

/-- Split a byte list into 64-byte chunks (fuelled structural recursion). -/
def chunksGo : Nat → List Nat → List (List Nat)
  | 0, _ => []
  | _+1, [] => []
  | f+1, l => l.take 64 :: chunksGo f (l.drop 64)

/-- The 8-byte big-endian encoding of a bit length. -/
def lenBytes (n : Nat) : List Nat := (List.range 8).map (fun i => (n >>> (8 * (7 - i))) % 256)

/-- SHA-256 message padding. -/
def padMsg (msg : List Nat) : List Nat :=
  let r := (msg.length + 1) % 64
  let k := (120 - r) % 64
  msg ++ [0x80] ++ List.replicate k 0 ++ lenBytes (msg.length * 8)

/-- The SHA-256 state after absorbing an entire message. -/
def sha256Words (msg : List Nat) : H8 :=
  (chunksGo (msg.length + 65) (padMsg msg)).foldl
    (fun st blk => compressBlock st (bytesToWords blk)) h0

/-- Lowercase hexadecimal digit. -/
def hexDigit (n : Nat) : Char := ("0123456789abcdef".data).getD n (Char.ofNat 48)

/-- Eight hex digits of a 32-bit word, most significant first. -/
def hex8 (n : Nat) : List Char := (List.range 8).map (fun i => hexDigit ((n >>> (4 * (7 - i))) % 16))

/-- `hashlib.sha256(bytes).hexdigest()`. -/
def sha256HexBytes (msg : List Nat) : String :=
  let st := sha256Words msg
  String.mk (hex8 st.a ++ hex8 st.b ++ hex8 st.c ++ hex8 st.d ++
             hex8 st.e ++ hex8 st.f ++ hex8 st.g ++ hex8 st.h)

/-- UTF-8 encoding of one Unicode scalar value. -/
def utf8Char (n : Nat) : List Nat :=
  if n < 128 then [n]
  else if n < 2048 then [192 ||| (n >>> 6), 128 ||| (n &&& 63)]
  else if n < 65536 then [224 ||| (n >>> 12), 128 ||| ((n >>> 6) &&& 63), 128 ||| (n &&& 63)]
  else [240 ||| (n >>> 18), 128 ||| ((n >>> 12) &&& 63), 128 ||| ((n >>> 6) &&& 63), 128 ||| (n &&& 63)]

/-- Python `s.encode("utf-8", "ignore")` (Lean strings hold no lone
surrogates, so nothing is ever ignored). -/
def utf8Bytes (s : String) : List Nat := s.data.flatMap (fun c => utf8Char c.toNat)

/-- `hashlib.sha256(s.encode("utf-8", "ignore")).hexdigest()`. -/
def sha256Hex (s : String) : String := sha256HexBytes (utf8Bytes s)

/-! The data model: one parsed feed entry, and the oracles for the external
library calls the pipeline makes on it. -/

/-- One feed entry, restricted to the fields `finance_news_bot.py` reads.
`none` models an absent key of the `feedparser` entry dictionary; `tags`
models the list of tag term strings (absent and empty coincide, as the code
reads tags with `entry.get("tags", [])`). -/
structure Entry where
  id : Option String
  link : Option String
  title : Option String
  summary : Option String
  published : Option String
  updated : Option String
  created : Option String
  tags : List String
deriving DecidableEq

/-- Oracles for the external pure-looking library calls: `parseDate` models
`dateutil.parser.parse` followed by the timezone localization and conversion
the code performs (returning microseconds since the epoch, or `none` when
parsing raises); `stripHtml` models `BeautifulSoup(x, "html.parser")
.get_text(" ", strip=True)`; `urlDomain` models
`urlparse(link).netloc.replace("www.", "")`. -/
structure PyEnv where
  parseDate : String → Option Int
  stripHtml : String → String
  urlDomain : String → String

/-! JSON serialization used by the fingerprint fallback:
`json.dumps(entry, sort_keys=True)` with the default `ensure_ascii=True`
and separators `", "` / `": "`, over the modelled fields. -/

/-- One `\uXXXX` escape. -/
def uEsc (n : Nat) : List Char :=
  Char.ofNat 92 :: Char.ofNat 117 :: (List.range 4).map (fun i => hexDigit ((n >>> (4 * (3 - i))) % 16))

/-- JSON escaping of a single character as `json.dumps` performs it with
`ensure_ascii=True`. -/
def jsonEscChar (c : Char) : List Char :=
  let n := c.toNat
  if n = 34 then [Char.ofNat 92, Char.ofNat 34]
  else if n = 92 then [Char.ofNat 92, Char.ofNat 92]
  else if n = 8 then [Char.ofNat 92, Char.ofNat 98]
  else if n = 9 then [Char.ofNat 92, Char.ofNat 116]
  else if n = 10 then [Char.ofNat 92, Char.ofNat 110]
  else if n = 12 then [Char.ofNat 92, Char.ofNat 102]
  else if n = 13 then [Char.ofNat 92, Char.ofNat 114]
  else if n < 32 then uEsc n
  else if n < 127 then [c]
  else if n < 65536 then uEsc n
  else uEsc (55296 + ((n - 65536) >>> 10)) ++ uEsc (56320 + ((n - 65536) &&& 1023))

/-- A JSON string literal. -/
def jsonStr (s : String) : String :=
  String.mk (Char.ofNat 34 :: s.data.flatMap jsonEscChar ++ [Char.ofNat 34])

/-- Serialization of the modelled entry, with keys in sorted order and absent
fields omitted, mirroring `json.dumps(entry, sort_keys=True)`. -/
def jsonDumpsEntry (e : Entry) : String :=
  let pre : List (String × Option String) :=
    [("created", e.created), ("id", e.id), ("link", e.link),
     ("published", e.published), ("summary", e.summary)]
  let post : List (String × Option String) := [("title", e.title), ("updated", e.updated)]
  let f1 := pre.filterMap (fun p => p.2.map (fun v => jsonStr p.1 ++ ": " ++ jsonStr v))
  let ftags :=
    if e.tags.isEmpty then []
    else [jsonStr "tags" ++ ": [" ++
          joinSep ", " (e.tags.map (fun t => "\x7b" ++ jsonStr "term" ++ ": " ++ jsonStr t ++ "\x7d")) ++ "]"]
  let f2 := post.filterMap (fun p => p.2.map (fun v => jsonStr p.1 ++ ": " ++ jsonStr v))
  "\x7b" ++ joinSep ", " (f1 ++ ftags ++ f2) ++ "\x7d"

/-! DedupAgent. -/

/-- The key hashed by `DedupAgent._fingerprint`:
`entry.get("id") or entry.get("link") or entry.get("title", "")`, falling back
to `json.dumps(entry, sort_keys=True)[:512]` when that is empty. -/
def DedupAgent.fingerprintKey (e : Entry) : String :=
  let key := pyOrS (pyOrS (e.id.getD "") (e.link.getD "")) (e.title.getD "")
  if key = "" then pyTake (jsonDumpsEntry e) 512 else key

/-- `DedupAgent._fingerprint(entry)`: the SHA-256 hex digest of the key. -/
def DedupAgent.fingerprint (e : Entry) : String := sha256Hex (DedupAgent.fingerprintKey e)

/-- The dedup store: the in-memory `_seen` set and the set of fingerprints
held by the backing cache file. -/
structure DedupState where
  seen : Finset String
  file : Finset String
deriving DecidableEq

/-- `DedupAgent.is_new(entry)`: a pure membership test on `_seen`. -/
def DedupAgent.isNew (s : DedupState) (e : Entry) : Bool :=
  !(decide (DedupAgent.fingerprint e ∈ s.seen))

/-- `DedupAgent.mark(entry)`: add the fingerprint to `_seen` and rewrite the
backing file in full; `saveOk` tells whether the write raised (a failed write
is logged and leaves the file as it was). -/
def DedupAgent.mark (saveOk : Bool) (s : DedupState) (e : Entry) : DedupState :=
  let seen2 := insert (DedupAgent.fingerprint e) s.seen
  ⟨seen2, if saveOk then seen2 else s.file⟩

/-- One call against the dedup store. -/
inductive DedupOp where
  | opIsNew (e : Entry)
  | opMark (e : Entry) (saveOk : Bool)

/-- State transition of one store call (`is_new` reads only). -/
def DedupAgent.applyOp (s : DedupState) : DedupOp → DedupState
  | .opIsNew _ => s
  | .opMark e ok => DedupAgent.mark ok s e

/-- Run a sequence of store calls. -/
def DedupAgent.runOps (s : DedupState) (ops : List DedupOp) : DedupState :=
  ops.foldl DedupAgent.applyOp s

/-! FeedAgent. -/

/-- The attempt loop of `FeedAgent.fetch`: `attemptRes i = some entries` means
attempt number `i` (1-based) returned `parsed.entries or []` as `entries`;
`none` means it raised.  The second argument counts the attempts still
allowed; a failing attempt with none remaining returns `[]`. -/
def FeedAgent.fetchFrom (attemptRes : Nat → Option (List Entry)) : Nat → Nat → List Entry
  | _, 0 => []
  | attempt, r+1 =>
    match attemptRes attempt with
    | some entries => entries
    | none => if r = 0 then [] else FeedAgent.fetchFrom attemptRes (attempt + 1) r

/-- `FeedAgent.fetch(url)`: `for attempt in range(1, retries + 2)` with the
last failure returning `[]` instead of re-raising. -/
def FeedAgent.fetch (attemptRes : Nat → Option (List Entry)) (retries : Nat) : List Entry :=
  FeedAgent.fetchFrom attemptRes 1 (retries + 1)

/-! FilterAgent. -/

/-- Configuration of `FilterAgent` and the module-level keyword globals it
reads: user keywords, `NEGATIVE_KEYWORDS`, `ECON_KEYWORDS`,
`WHITELIST_DOMAINS`, `REQUIRE_ECON_KEYWORDS`, and the freshness window in
microseconds. -/
structure FilterCfg where
  keywords : List String
  negativeKeywords : List String
  econKeywords : List String
  whitelistDomains : List String
  requireEcon : Bool
  freshness : Int

/-- `FilterAgent._entry_text`: lower-cased concatenation of title, cleaned
summary and tag terms. -/
def FilterAgent.entryText (env : PyEnv) (e : Entry) : String :=
  lowerStr ((e.title.getD "") ++ " " ++ env.stripHtml (e.summary.getD "") ++ " " ++
            joinSep " " e.tags)

/-- `FilterAgent._entry_domain`: the www-stripped, lower-cased netloc of the
entry link. -/
def FilterAgent.entryDomain (env : PyEnv) (e : Entry) : String :=
  lowerStr (env.urlDomain (e.link.getD ""))

/-- The field scan shared by `FilterAgent._is_fresh` and `_sort_key`: walk the
given date fields in order, skip falsy values and values whose parse raises,
and stop at the first timestamp successfully parsed. -/
def firstParsedGo (env : PyEnv) : List (Option String) → Option Int
  | [] => none
  | f :: rest =>
    match f with
    | none => firstParsedGo env rest
    | some v =>
      if v = "" then firstParsedGo env rest
      else
        match env.parseDate v with
        | some t => some t
        | none => firstParsedGo env rest

/-- The first parseable timestamp among `published`, `updated`, `created`. -/
def firstParsedDate (env : PyEnv) (e : Entry) : Option Int :=
  firstParsedGo env [e.published, e.updated, e.created]

/-- `FilterAgent._is_fresh`: an entry with no parseable date is fresh; a dated
entry is fresh when `now - published <= self.freshness`. -/
def FilterAgent.isFresh (env : PyEnv) (now freshness : Int) (e : Entry) : Bool :=
  match firstParsedDate env e with
  | none => true
  | some t => decide (now - t ≤ freshness)

/-- `FilterAgent._has_negative`. -/
def FilterAgent.hasNegative (cfg : FilterCfg) (text : String) : Bool :=
  cfg.negativeKeywords.any (fun k => inStr k text)

/-- `FilterAgent._is_economic`. -/
def FilterAgent.isEconomic (cfg : FilterCfg) (text domain : String) : Bool :=
  cfg.whitelistDomains.contains domain || cfg.econKeywords.any (fun k => inStr k text)

/-- `FilterAgent._matches_user_keywords`. -/
def FilterAgent.matchesUserKeywords (cfg : FilterCfg) (text : String) : Bool :=
  if cfg.keywords.isEmpty then true else cfg.keywords.any (fun k => inStr k text)

/-- The per-entry acceptance predicate of `FilterAgent.filter`, with the
checks in source order (each `continue` is a rejection). -/
def FilterAgent.keeps (env : PyEnv) (cfg : FilterCfg) (now : Int) (e : Entry) : Bool :=
  (stripStr (e.title.getD "") != "") &&
  FilterAgent.isFresh env now cfg.freshness e &&
  (!FilterAgent.hasNegative cfg (FilterAgent.entryText env e)) &&
  (!cfg.requireEcon || FilterAgent.isEconomic cfg (FilterAgent.entryText env e) (FilterAgent.entryDomain env e)) &&
  FilterAgent.matchesUserKeywords cfg (FilterAgent.entryText env e)

/-- `FilterAgent.filter(entries)`: keep, in order, the entries passing every
check. -/
def FilterAgent.filter (env : PyEnv) (cfg : FilterCfg) (now : Int) (entries : List Entry) : List Entry :=
  entries.filter (FilterAgent.keeps env cfg now)

/-! SummarizerAgent and CommentAgent. -/

/-- Configuration of `SummarizerAgent`. -/
structure SummAgent where
  provider : String
  apiKey : String
  maxLen : Nat

/-- `SummarizerAgent.summarize(title, summary)`.  `backend` models
`_openai_chat` (the stripped response content, or `none` when the request
raised). -/
def SummarizerAgent.summarize (env : PyEnv) (backend : String → Option String)
    (a : SummAgent) (title summary : String) : String :=
  let text := title ++ ". " ++ env.stripHtml summary
  let fallb :=
    let s := env.stripHtml summary
    if s = "" then pyTake title a.maxLen else pyTake s a.maxLen
  if a.provider == "openai" && a.apiKey != "" then
    match backend (pyTake text 3000) with
    | some res => if res = "" then fallb else pyTake res a.maxLen
    | none => fallb
  else fallb

/-- Configuration of `CommentAgent`. -/
structure CommAgent where
  provider : String
  apiKey : String
  maxLen : Nat

/-- `CommentAgent.comment(title, source, summary_html)`.  `backend` models its
`_openai_chat` over `(title, source, cleaned summary)`. -/
def CommentAgent.comment (env : PyEnv) (backend : String → String → String → Option String)
    (a : CommAgent) (title source summaryHtml : String) : Option String :=
  if a.provider != "openai" || a.apiKey == "" then none
  else
    let clean := env.stripHtml summaryHtml
    match backend title source clean with
    | none => none
    | some out => if out = "" then none else some (pyTake out a.maxLen)

/-! HashtagAgent. -/

/-- `HashtagAgent.DYNAMIC_MAP` in source order. -/
def HashtagAgent.dynamicMap : List (String × List String) := [
  ("#bitcoin", ["bitcoin", "btc"]),
  ("#ethereum", ["ethereum", "eth"]),
  ("#crypto", ["crypto", "criptovalute", "defi", "stablecoin"]),
  ("#inflazione", ["inflazione", "inflation", "cpi", "ppi"]),
  ("#tassi", ["tassi", "rates", "interest rate", "bce", "ecb", "fed", "federal reserve", "yield", "treasury"]),
  ("#petrolio", ["petrolio", "oil", "brent", "wti"]),
  ("#oro", ["oro", "gold"]),
  ("#azioni", ["azioni", "stocks", "equities", "borsa", "stock market"]),
  ("#obbligazioni", ["obbligazioni", "bond", "bund", "btp", "treasury"]),
  ("#materieprime", ["commodities", "materie prime", "rame", "gas", "copper"]),
  ("#mercati", ["mercati", "markets", "wall street", "wallstreet"])]

/-- The normalized base hashtag list built in `HashtagAgent.__init__`. -/
def HashtagAgent.mkBase (base : String) : List String :=
  (splitWords base).map (fun h => if h.startsWith "#" then h else "#" ++ h)

/-- Order-preserving deduplication, as the `seen` / `out` loop in
`HashtagAgent.gen` performs it. -/
def dedupKeep (seen : List String) : List String → List String
  | [] => []
  | h :: t => if seen.contains h then dedupKeep seen t else h :: dedupKeep (h :: seen) t

/-- `HashtagAgent.gen(text_for_tags, max_total)`. -/
def HashtagAgent.gen (base : List String) (text : String) (maxTotal : Nat) : String :=
  let textL := lowerStr text
  let dynamic := (HashtagAgent.dynamicMap.filter (fun p => p.2.any (fun k => inStr k textL))).map Prod.fst
  joinSep " " ((dedupKeep [] (base ++ dynamic)).take maxTotal)

/-! TwitterAgent. -/

/-- The dictionary `TwitterAgent.post` returns. -/
structure TwResult where
  ok : Bool
  skipped : Bool
  dry : Bool
  err : Option String
deriving DecidableEq

/-- Configuration of `TwitterAgent`: `enabled` is the conjunction computed in
its constructor (toggle, full credentials, successful tweepy init). -/
structure TwAgent where
  enabled : Bool
  dryRun : Bool

/-- `TwitterAgent._trim_for_tweet(title, link, hashtags, limit)`. -/
def TwitterAgent.trimForTweet (title link hashtags : String) (limit : Nat) : String :=
  let base := stripStr (title ++ " " ++ link)
  let tags := if hashtags = "" then "" else " " ++ joinSep " " ((splitWords hashtags).take 3)
  let text := stripStr (base ++ tags)
  if text.length ≤ limit then text
  else
    let cut : Int := (limit : Int) - (link.length : Int) - (tags.length : Int) - 1
    let tags2 := if cut < 10 then "" else tags
    let cut2 : Int := if cut < 10 then (limit : Int) - (link.length : Int) - 1 else cut
    let shortTitle := if (title.length : Int) > cut2 then pySliceTo title (cut2 - 1) ++ "…" else title
    shortTitle ++ " " ++ link ++ tags2

/-- `TwitterAgent.post(title, link, hashtags)`.  `send` models
`tweepy update_status` (`none` on success, the exception message when it
raises; the exception is caught and reported in the result).  Every path of
the source returns a dictionary, so the embedding is a total function. -/
def TwitterAgent.post (send : String → Option String) (a : TwAgent)
    (title link hashtags : String) : TwResult :=
  if !a.enabled then ⟨true, true, false, none⟩
  else
    let text := TwitterAgent.trimForTweet title link hashtags 280
    if a.dryRun then ⟨true, false, true, none⟩
    else
      match send text with
      | none => ⟨true, false, false, none⟩
      | some msg => ⟨false, false, false, some msg⟩

/-! Orchestrator: `build_post`, `_sort_key`, and the publishing loop of
`main`. -/

/-- The bundle `build_post` returns. -/
structure BuiltPost where
  postText : String
  title : String
  link : String
  hashtags : String
deriving DecidableEq

/-- `build_post(entry, summarizer, commenter, hashtagger)`. -/
def buildPost (env : PyEnv) (sumBackend : String → Option String)
    (comBackend : String → String → String → Option String)
    (s : SummAgent) (c : CommAgent) (base : List String) (e : Entry) : BuiltPost :=
  let title := stripStr (e.title.getD "")
  let link := stripStr (e.link.getD "")
  let summaryHtml := e.summary.getD ""
  let source := if link = "" then "" else env.urlDomain link
  let blurb := SummarizerAgent.summarize env sumBackend s title summaryHtml
  let com := CommentAgent.comment env comBackend c title source summaryHtml
  let baseText := title ++ " " ++ env.stripHtml summaryHtml ++ " " ++ source
  let hashtags := HashtagAgent.gen base baseText 10
  let parts :=
    ["📰 " ++ title] ++
    (if blurb != "" && !(inStr (lowerStr blurb) (lowerStr title)) then [blurb] else []) ++
    (match com with
     | some co => if co = "" then [] else ["💬 Analisi: " ++ co]
     | none => []) ++
    (if source != "" then ["Fonte: " ++ source] else []) ++
    (if link != "" then [link] else []) ++
    (if hashtags != "" then [hashtags] else [])
  ⟨joinSep "\n\n" parts, title, link, hashtags⟩

/-- `_sort_key(e)`: the first parseable timestamp, else the current time. -/
def sortKey (env : PyEnv) (now : Int) (e : Entry) : Int :=
  match firstParsedDate env e with
  | some t => t
  | none => now

/-- The descending-recency ordering used by
`sorted(collected, key=_sort_key, reverse=True)`. -/
def rankRel (env : PyEnv) (now : Int) (a b : Entry) : Prop :=
  sortKey env now b ≤ sortKey env now a

instance (env : PyEnv) (now : Int) : DecidableRel (rankRel env now) :=
  fun _ _ => Int.decLe _ _

instance (env : PyEnv) (now : Int) : IsTotal Entry (rankRel env now) :=
  ⟨fun a b => (le_total (sortKey env now b) (sortKey env now a)).imp id id⟩

instance (env : PyEnv) (now : Int) : IsTrans Entry (rankRel env now) :=
  ⟨fun _ _ _ hab hbc => le_trans hbc hab⟩

/-- `sorted(collected, key=_sort_key, reverse=True)`: a stable sort by
effective timestamp descending. -/
def rankSort (env : PyEnv) (now : Int) (l : List Entry) : List Entry :=
  List.insertionSort (rankRel env now) l

/-- Everything the publishing loop of `main` reads: the agent configurations,
the oracles, the publish cap, and the run state oracles (`elapsed k` is
`time.time() > deadline` at the `k`-th loop check, `primary` tells whether
`publisher.post(text)` returned without raising, `saveOk` tells whether the
cache write of the `k`-th `mark` succeeded). -/
structure RunCfg where
  env : PyEnv
  sumBackend : String → Option String
  comBackend : String → String → String → Option String
  summ : SummAgent
  comm : CommAgent
  hashBase : List String
  tw : TwAgent
  cap : Nat
  now : Int
  elapsed : Nat → Bool
  primary : String → Bool
  saveOk : Nat → Bool

/-- The `build_post` result for an entry under a run configuration. -/
def builtOf (cfg : RunCfg) (e : Entry) : BuiltPost :=
  buildPost cfg.env cfg.sumBackend cfg.comBackend cfg.summ cfg.comm cfg.hashBase e

/-- Whether `publisher.post` succeeds on the composed text of an entry. -/
def primaryOk (cfg : RunCfg) (e : Entry) : Bool := cfg.primary (builtOf cfg e).postText

/-- The (at most one) Twitter call made for an entry after a successful
primary publish: skipped entirely when the built link is empty. -/
def twCall (cfg : RunCfg) (twSend : String → Option String) (e : Entry) : List TwResult :=
  if (builtOf cfg e).link != "" then
    [TwitterAgent.post twSend cfg.tw (builtOf cfg e).title (builtOf cfg e).link (builtOf cfg e).hashtags]
  else []

/-- Result of the publishing loop: the `posted` counter, the dedup store, the
entries for which a publish was attempted, the entries published, and the
collected Twitter results. -/
structure LoopOut where
  posted : Nat
  store : DedupState
  attempted : List Entry
  published : List Entry
  twLog : List TwResult
deriving DecidableEq

/-- The publishing loop of `main` over the ranked entries: check the deadline,
check the cap, compose, attempt the primary publish; on success run the
optional Twitter post, mark the fingerprint and count the item; on an
exception log and continue with the next item. -/
def pubLoop (cfg : RunCfg) (twSend : String → Option String) :
    List Entry → Nat → Nat → DedupState → List Entry → List Entry → List TwResult → LoopOut
  | [], _, posted, st, att, pub, twl => ⟨posted, st, att, pub, twl⟩
  | e :: rest, k, posted, st, att, pub, twl =>
    if cfg.elapsed k then ⟨posted, st, att, pub, twl⟩
    else if cfg.cap ≤ posted then ⟨posted, st, att, pub, twl⟩
    else if primaryOk cfg e then
      pubLoop cfg twSend rest (k + 1) (posted + 1) (DedupAgent.mark (cfg.saveOk k) st e)
        (att ++ [e]) (pub ++ [e]) (twl ++ twCall cfg twSend e)
    else
      pubLoop cfg twSend rest (k + 1) posted st (att ++ [e]) pub twl

/-- The publishing phase of `main`: rank the collected entries by recency and
run the publishing loop from a fresh counter over them. -/
def mainPublish (cfg : RunCfg) (twSend : String → Option String)
    (collected : List Entry) (st0 : DedupState) : LoopOut :=
  pubLoop cfg twSend (rankSort cfg.env cfg.now collected) 0 0 st0 [] [] []

/-! Concrete oracles, configurations and entries used to exercise the
theorems on closed inputs. -/

/-- An environment whose date parser always fails and whose HTML stripper is
the identity. -/
def envId : PyEnv := ⟨fun _ => none, fun s => s, fun _ => ""⟩

/-- An environment parsing the three literal date strings `d1`, `d2`, `d3`. -/
def envT : PyEnv :=
  ⟨fun s => if s = "d1" then some 100 else if s = "d2" then some 200
            else if s = "d3" then some 300 else none,
   fun s => s, fun _ => "x.com"⟩

/-- A filter configuration with no keyword constraints. -/
def fcfgPlain : FilterCfg := ⟨[], [], [], [], false, 60⟩

/-- An entry whose date field is the literal `d`. -/
def entD (d : String) : Entry :=
  ⟨none, some ("http://x.com/" ++ d), some ("T" ++ d), some "s", some d, none, none, []⟩

/-- A summarizer with no backend configured. -/
def summ0 : SummAgent := ⟨"", "", 240⟩

/-- A commenter with no backend configured. -/
def comm0 : CommAgent := ⟨"", "", 220⟩

/-- A run configuration over `envT` with the given cap, deadline oracle and
primary-publish oracle. -/
def cfgW (cap : Nat) (elapsed : Nat → Bool) (primary : String → Bool) : RunCfg :=
  ⟨envT, fun _ => none, fun _ _ _ => none, summ0, comm0, ["#mercati"], ⟨true, false⟩,
   cap, 1000, elapsed, primary, fun _ => true⟩

/-- An empty dedup store. -/
def stEmpty : DedupState := ⟨∅, ∅⟩

/-! Sanity checks of the SHA-256 embedding against the standard test
vectors, and of the fingerprint key derivation. -/

example : sha256Hex "abc" = "ba7816bf8f01cfea414140de5dae2223b00361a396177a9cb410ff61f20015ad" := by
  decide

example : sha256Hex "" = "e3b0c44298fc1c149afbf4c8996fb92427ae41e4649b934ca495991b7852b855" := by
  decide

example : DedupAgent.fingerprintKey ⟨some "guid", some "http://a", some "T", some "s", none, none, none, []⟩ = "guid" := by
  decide

example : DedupAgent.fingerprintKey ⟨none, some "http://a", some "T", some "s", none, none, none, []⟩ = "http://a" := by
  decide

example : DedupAgent.fingerprintKey ⟨none, none, some "T", some "s", none, none, none, []⟩ = "T" := by
  decide

example : jsonDumpsEntry ⟨none, none, none, some "x", none, none, none, []⟩ = "\x7b\"summary\": \"x\"\x7d" := by
  decide

/-! Claim C1: the fingerprint as a function of the identity fields. -/

/-- C1, as stated, fails: two entries with identical (all-absent) identifier,
link and title fields but different raw summary text fall through to the
serialized-entry fallback and hash to different fingerprints. -/
theorem claim1_counterexample :
    (Entry.mk none none none (some "x") none none none []).id
        = (Entry.mk none none none (some "y") none none none []).id
  ∧ (Entry.mk none none none (some "x") none none none []).link
        = (Entry.mk none none none (some "y") none none none []).link
  ∧ (Entry.mk none none none (some "x") none none none []).title
        = (Entry.mk none none none (some "y") none none none []).title
  ∧ DedupAgent.fingerprint (Entry.mk none none none (some "x") none none none [])
        ≠ DedupAgent.fingerprint (Entry.mk none none none (some "y") none none none []) := by
  refine ⟨rfl, rfl, rfl, ?_⟩
  decide

/-- C1 (amended): for every pair of entries with identical identifier, link
and title fields, at least one of which is non-empty, the fingerprint is the
same, independent of every other field. -/
theorem claim1_fingerprint_of_identity (a b : Entry)
    (hid : a.id = b.id) (hlink : a.link = b.link) (htitle : a.title = b.title)
    (hne : pyOrS (pyOrS (a.id.getD "") (a.link.getD "")) (a.title.getD "") ≠ "") :
    DedupAgent.fingerprint a = DedupAgent.fingerprint b := by
  unfold DedupAgent.fingerprint DedupAgent.fingerprintKey
  simp only [hid, hlink, htitle] at hne ⊢
  simp only [if_neg hne]

/-- Witness for C1 (amended): same identifier, different summaries, same
fingerprint. -/
theorem claim1_fingerprint_of_identity_witness :
    DedupAgent.fingerprint (Entry.mk (some "guid-1") none none (some "x") none none none [])
      = DedupAgent.fingerprint (Entry.mk (some "guid-1") none none (some "y") none none none []) :=
  claim1_fingerprint_of_identity _ _ rfl rfl rfl (by decide)

/-! Claim C5: fetch retry exhaustion. -/

/-- If every attempt from `a` through `a + r - 1` fails, the attempt loop
returns the empty list. -/
theorem fetchFrom_all_fail (attemptRes : Nat → Option (List Entry)) :
    ∀ (r a : Nat), (∀ i, a ≤ i → i < a + r → attemptRes i = none) →
      FeedAgent.fetchFrom attemptRes a r = [] := by
  intro r
  induction r with
  | zero => intro a _; rfl
  | succ n ih =>
    intro a h
    rw [FeedAgent.fetchFrom, h a le_rfl (by omega)]
    by_cases hn : n = 0
    · simp [hn]
    · simp only [if_neg hn]
      exact ih (a + 1) (fun i h1 h2 => h i (by omega) (by omega))

/-- C5: after the initial attempt plus the configured number of retries all
fail, `fetch` returns the empty sequence (in the embedding `fetch` is a total
function, so no exception reaches the caller on any path). -/
theorem claim5_fetch_all_failures_empty (attemptRes : Nat → Option (List Entry)) (retries : Nat)
    (hfail : ∀ i, 1 ≤ i → i ≤ retries + 1 → attemptRes i = none) :
    FeedAgent.fetch attemptRes retries = [] :=
  fetchFrom_all_fail attemptRes (retries + 1) 1 (fun i h1 h2 => hfail i h1 (by omega))

/-- Witness for C5: two retries, all three attempts fail. -/
theorem claim5_fetch_all_failures_empty_witness :
    FeedAgent.fetch (fun _ => (none : Option (List Entry))) 2 = [] :=
  claim5_fetch_all_failures_empty _ 2 (fun _ _ _ => rfl)

/-! Claim C7: the freshness boundary is inclusive. -/

/-- C7: an entry whose parsed timestamp is exactly `freshness` old is kept by
the freshness check, and one a single microsecond older is dropped. -/
theorem claim7_freshness_boundary (env : PyEnv) (now w : Int) (e : Entry) (t : Int)
    (h : firstParsedDate env e = some t) :
    (now - t = w → FilterAgent.isFresh env now w e = true)
  ∧ (now - t = w + 1 → FilterAgent.isFresh env now w e = false) := by
  unfold FilterAgent.isFresh
  rw [h]
  refine ⟨fun h1 => ?_, fun h2 => ?_⟩
  · simp [h1]
  · rw [decide_eq_false_iff_not]
    omega

/-- Witness for C7: with the window at 60 microseconds and the timestamp at
100, the check keeps the entry at `now = 160` and drops it at `now = 161`. -/
theorem claim7_freshness_boundary_witness :
    FilterAgent.isFresh envT 160 60 (entD "d1") = true
  ∧ FilterAgent.isFresh envT 161 60 (entD "d1") = false :=
  ⟨(claim7_freshness_boundary envT 160 60 (entD "d1") 100 (by decide)).1 rfl,
   (claim7_freshness_boundary envT 161 60 (entD "d1") 100 (by decide)).2 rfl⟩

/-! Claim C8: the fingerprint store only grows. -/

/-- Across any single store call the in-memory set can only grow. -/
theorem seen_subset_applyOp (s : DedupState) (op : DedupOp) :
    s.seen ⊆ (DedupAgent.applyOp s op).seen := by
  cases op with
  | opIsNew _ => exact Finset.Subset.refl _
  | opMark e ok => exact Finset.subset_insert _ _

/-- Across any sequence of store calls the in-memory set can only grow. -/
theorem seen_subset_runOps (ops : List DedupOp) :
    ∀ s : DedupState, s.seen ⊆ (DedupAgent.runOps s ops).seen := by
  induction ops with
  | nil => intro s; exact Finset.Subset.refl _
  | cons op t ih =>
    intro s
    exact (seen_subset_applyOp s op).trans (ih (DedupAgent.applyOp s op))

/-- C8: `is_new` never modifies the store; each `mark` yields exactly the
previous in-memory set plus the marked fingerprint; a successful write leaves
the backing file holding exactly the new in-memory set while a failed write
leaves the file unchanged; and across any sequence of operations the set is a
superset of its value after any earlier prefix. -/
theorem claim8_store_only_grows :
    (∀ (s : DedupState) (e : Entry), DedupAgent.applyOp s (DedupOp.opIsNew e) = s)
  ∧ (∀ (s : DedupState) (e : Entry) (ok : Bool),
      (DedupAgent.mark ok s e).seen = insert (DedupAgent.fingerprint e) s.seen)
  ∧ (∀ (s : DedupState) (e : Entry),
      (DedupAgent.mark true s e).file = insert (DedupAgent.fingerprint e) s.seen)
  ∧ (∀ (s : DedupState) (e : Entry), (DedupAgent.mark false s e).file = s.file)
  ∧ (∀ (s : DedupState) (ops more : List DedupOp),
      (DedupAgent.runOps s ops).seen ⊆ (DedupAgent.runOps s (ops ++ more)).seen) := by
  refine ⟨fun s e => rfl, fun s e ok => rfl, fun s e => rfl, fun s e => rfl, fun s ops more => ?_⟩
  unfold DedupAgent.runOps
  rw [List.foldl_append]
  exact seen_subset_runOps more _

/-! Claim C9: summarizer fallback when the backend is disabled or fails. -/

/-- C9: when the backend is disabled (provider not `openai` or key empty) or
its call fails, `summarize` returns the first `max_len` characters of the
HTML-stripped summary, or of the title when the stripped summary is empty. -/
theorem claim9_summarize_fallback (env : PyEnv) (backend : String → Option String)
    (a : SummAgent) (title summary : String)
    (h : (¬ (a.provider = "openai" ∧ a.apiKey ≠ ""))
         ∨ backend (pyTake (title ++ ". " ++ env.stripHtml summary) 3000) = none) :
    SummarizerAgent.summarize env backend a title summary =
      (if env.stripHtml summary = "" then pyTake title a.maxLen
       else pyTake (env.stripHtml summary) a.maxLen) := by
  unfold SummarizerAgent.summarize
  by_cases hc : (a.provider == "openai" && a.apiKey != "") = true
  · rcases h with h1 | h2
    · exfalso
      apply h1
      simpa using hc
    · simp [hc, h2]
  · have hc2 : (a.provider == "openai" && a.apiKey != "") = false := by
      cases hb : (a.provider == "openai" && a.apiKey != "") with
      | true => exact absurd hb hc
      | false => rfl
    simp [hc2]

/-- Witness for C9: backend disabled, summary non-empty. -/
theorem claim9_summarize_fallback_witness :
    SummarizerAgent.summarize envId (fun _ => none) (SummAgent.mk "" "" 5) "titolo" "hello world"
      = "hello" :=
  (claim9_summarize_fallback envId (fun _ => none) (SummAgent.mk "" "" 5) "titolo" "hello world"
    (Or.inl (by decide))).trans (by decide)

/-! Claim C6: undated items and the filter. -/

/-- C6, as stated over `filter`, fails: an entry with no parseable timestamp
is still dropped when another rejection applies — here, a missing title. -/
theorem claim6_counterexample :
    firstParsedDate envId (Entry.mk none none none none none none none []) = none
  ∧ FilterAgent.filter envId fcfgPlain 0 [Entry.mk none none none none none none none []] = [] :=
  ⟨rfl, by decide⟩

/-- C6 (amended): an entry with no parseable timestamp always passes the
freshness check (it is treated as fresh), so the filter never drops it for
staleness: it is kept exactly when the title, negative-keyword, relevance and
user-keyword checks pass. -/
theorem claim6_undated_always_fresh (env : PyEnv) (cfg : FilterCfg) (now : Int) (e : Entry)
    (h : firstParsedDate env e = none) :
    FilterAgent.isFresh env now cfg.freshness e = true
  ∧ FilterAgent.keeps env cfg now e =
      ((stripStr (e.title.getD "") != "")
        && (!FilterAgent.hasNegative cfg (FilterAgent.entryText env e))
        && (!cfg.requireEcon || FilterAgent.isEconomic cfg (FilterAgent.entryText env e) (FilterAgent.entryDomain env e))
        && FilterAgent.matchesUserKeywords cfg (FilterAgent.entryText env e))
  ∧ (∀ l, FilterAgent.filter env cfg now l = List.filter (FilterAgent.keeps env cfg now) l) := by
  have hf : FilterAgent.isFresh env now cfg.freshness e = true := by
    unfold FilterAgent.isFresh
    rw [h]
  refine ⟨hf, ?_, fun l => rfl⟩
  unfold FilterAgent.keeps
  rw [hf]
  simp only [Bool.true_and, Bool.and_true]

/-- Witness for C6 (amended): an undated entry passes the freshness check. -/
theorem claim6_undated_always_fresh_witness :
    FilterAgent.isFresh envId 0 fcfgPlain.freshness (entD "dX") = true :=
  (claim6_undated_always_fresh envId fcfgPlain 0 (entD "dX") (by decide)).1

/-! Claim C4: an elapsed deadline before the publishing phase. -/

/-- C4: when the deadline has elapsed at the first publishing-loop check,
nothing is published, for every collected list. -/
theorem claim4_elapsed_deadline_publishes_nothing (cfg : RunCfg) (twSend : String → Option String)
    (collected : List Entry) (st0 : DedupState) (h : cfg.elapsed 0 = true) :
    (mainPublish cfg twSend collected st0).published = []
  ∧ (mainPublish cfg twSend collected st0).posted = 0 := by
  unfold mainPublish
  cases hr : rankSort cfg.env cfg.now collected with
  | nil => exact ⟨rfl, rfl⟩
  | cons e rest => refine ⟨?_, ?_⟩ <;> simp [pubLoop, h]

/-- Witness for C4: a non-empty collected list, deadline already elapsed. -/
theorem claim4_elapsed_deadline_publishes_nothing_witness :
    (mainPublish (cfgW 6 (fun _ => true) (fun _ => true)) (fun _ => none) [entD "d1"] stEmpty).published = []
  ∧ (mainPublish (cfgW 6 (fun _ => true) (fun _ => true)) (fun _ => none) [entD "d1"] stEmpty).posted = 0 :=
  claim4_elapsed_deadline_publishes_nothing (cfgW 6 (fun _ => true) (fun _ => true))
    (fun _ => none) [entD "d1"] stEmpty rfl

/-! The two structural lemmas about the publishing loop shared by the
remaining claims. -/

/-- With no deadline and every primary publish succeeding, the loop emits,
in order, exactly the next `cap - posted` entries of its input. -/
theorem pubLoop_success_run (cfg : RunCfg) (twSend : String → Option String)
    (hE : ∀ k, cfg.elapsed k = false) (hP : ∀ e, primaryOk cfg e = true) :
    ∀ (l : List Entry) (k posted : Nat) (st : DedupState) (att pub : List Entry)
      (twl : List TwResult), posted ≤ cfg.cap →
      (pubLoop cfg twSend l k posted st att pub twl).published
          = pub ++ l.take (cfg.cap - posted)
      ∧ (pubLoop cfg twSend l k posted st att pub twl).posted
          = min cfg.cap (posted + l.length) := by
  intro l
  induction l with
  | nil =>
    intro k posted st att pub twl hle
    refine ⟨by simp [pubLoop], ?_⟩
    simp only [pubLoop, List.length_nil]
    omega
  | cons e rest ih =>
    intro k posted st att pub twl hle
    by_cases hcap : cfg.cap ≤ posted
    · have hpc : posted = cfg.cap := le_antisymm hle hcap
      have hz : cfg.cap - posted = 0 := by omega
      refine ⟨?_, ?_⟩
      · simp [pubLoop, hE k, hcap, hz]
      · simp only [pubLoop, hE k, Bool.false_eq_true, if_false, if_pos hcap]
        simp [List.length_cons]
        omega
    · obtain ⟨ih1, ih2⟩ := ih (k + 1) (posted + 1) (DedupAgent.mark (cfg.saveOk k) st e)
        (att ++ [e]) (pub ++ [e]) (twl ++ twCall cfg twSend e) (by omega)
      have hstep : pubLoop cfg twSend (e :: rest) k posted st att pub twl
          = pubLoop cfg twSend rest (k + 1) (posted + 1) (DedupAgent.mark (cfg.saveOk k) st e)
              (att ++ [e]) (pub ++ [e]) (twl ++ twCall cfg twSend e) := by
        simp [pubLoop, hE k, hcap, hP e]
      rw [hstep]
      refine ⟨?_, ?_⟩
      · rw [ih1]
        have h1 : cfg.cap - posted = (cfg.cap - (posted + 1)) + 1 := by omega
        rw [h1, List.take_succ_cons]
        simp
      · rw [ih2]
        simp only [List.length_cons]
        omega

/-- The loop processes some prefix of its input: the attempted entries are
that prefix, the published entries are its successful ones in order, the
marked fingerprints are exactly those of the published entries, and the
counter counts them. -/
theorem pubLoop_spec (cfg : RunCfg) (twSend : String → Option String) :
    ∀ (l : List Entry) (k posted : Nat) (st : DedupState) (att pub : List Entry)
      (twl : List TwResult),
      ∃ n : Nat,
        (pubLoop cfg twSend l k posted st att pub twl).attempted = att ++ l.take n
      ∧ (pubLoop cfg twSend l k posted st att pub twl).published
          = pub ++ (l.take n).filter (primaryOk cfg)
      ∧ (pubLoop cfg twSend l k posted st att pub twl).store.seen
          = st.seen ∪ (((l.take n).filter (primaryOk cfg)).map DedupAgent.fingerprint).toFinset
      ∧ (pubLoop cfg twSend l k posted st att pub twl).posted
          = posted + ((l.take n).filter (primaryOk cfg)).length := by
  intro l
  induction l with
  | nil =>
    intro k posted st att pub twl
    exact ⟨0, by simp [pubLoop], by simp [pubLoop], by simp [pubLoop], by simp [pubLoop]⟩
  | cons e rest ih =>
    intro k posted st att pub twl
    by_cases h1 : cfg.elapsed k = true
    · exact ⟨0, by simp [pubLoop, h1], by simp [pubLoop, h1], by simp [pubLoop, h1],
        by simp [pubLoop, h1]⟩
    by_cases h2 : cfg.cap ≤ posted
    · exact ⟨0, by simp [pubLoop, h1, h2], by simp [pubLoop, h1, h2], by simp [pubLoop, h1, h2],
        by simp [pubLoop, h1, h2]⟩
    by_cases h3 : primaryOk cfg e = true
    · obtain ⟨n, ha, hp, hs, hc⟩ := ih (k + 1) (posted + 1) (DedupAgent.mark (cfg.saveOk k) st e)
        (att ++ [e]) (pub ++ [e]) (twl ++ twCall cfg twSend e)
      have hstep : pubLoop cfg twSend (e :: rest) k posted st att pub twl
          = pubLoop cfg twSend rest (k + 1) (posted + 1) (DedupAgent.mark (cfg.saveOk k) st e)
              (att ++ [e]) (pub ++ [e]) (twl ++ twCall cfg twSend e) := by
        simp [pubLoop, h1, h2, h3]
      refine ⟨n + 1, ?_, ?_, ?_, ?_⟩ <;> rw [hstep]
      · rw [ha, List.take_succ_cons]
        simp
      · rw [hp, List.take_succ_cons]
        simp [List.filter_cons, h3]
      · rw [hs, List.take_succ_cons]
        simp [DedupAgent.mark, List.filter_cons, h3, List.toFinset_cons,
              Finset.union_insert, Finset.insert_union]
      · rw [hc, List.take_succ_cons]
        simp [List.filter_cons, h3]
        omega
    · have h3f : primaryOk cfg e = false := by
        cases hb : primaryOk cfg e with
        | true => exact absurd hb h3
        | false => rfl
      obtain ⟨n, ha, hp, hs, hc⟩ := ih (k + 1) posted st (att ++ [e]) pub twl
      have hstep : pubLoop cfg twSend (e :: rest) k posted st att pub twl
          = pubLoop cfg twSend rest (k + 1) posted st (att ++ [e]) pub twl := by
        simp [pubLoop, h1, h2, h3f]
      refine ⟨n + 1, ?_, ?_, ?_, ?_⟩ <;> rw [hstep]
      · rw [ha, List.take_succ_cons]
        simp
      · rw [hp, List.take_succ_cons]
        simp [List.filter_cons, h3f]
      · rw [hs, List.take_succ_cons]
        simp [List.filter_cons, h3f]
      · rw [hc, List.take_succ_cons]
        simp [List.filter_cons, h3f]

/-! Claim C3: cap enforcement. -/

/-- C3: with the deadline never elapsing and every primary publish
succeeding, a collected list longer than the cap publishes exactly `cap`
items: the first `cap` of the ranked list, sorted by effective timestamp
descending, and every unpublished ranked item has a key no greater than any
published one. -/
theorem claim3_cap_enforcement (cfg : RunCfg) (twSend : String → Option String)
    (collected : List Entry) (st0 : DedupState)
    (hE : ∀ k, cfg.elapsed k = false) (hP : ∀ e, primaryOk cfg e = true)
    (hlen : cfg.cap < collected.length) :
    (mainPublish cfg twSend collected st0).published
        = (rankSort cfg.env cfg.now collected).take cfg.cap
  ∧ (mainPublish cfg twSend collected st0).posted = cfg.cap
  ∧ ((mainPublish cfg twSend collected st0).published).length = cfg.cap
  ∧ List.Sorted (rankRel cfg.env cfg.now) (mainPublish cfg twSend collected st0).published
  ∧ (∀ x ∈ (mainPublish cfg twSend collected st0).published,
      ∀ y ∈ (rankSort cfg.env cfg.now collected).drop cfg.cap,
        sortKey cfg.env cfg.now y ≤ sortKey cfg.env cfg.now x) := by
  have hlenr : (rankSort cfg.env cfg.now collected).length = collected.length :=
    (List.perm_insertionSort (rankRel cfg.env cfg.now) collected).length_eq
  obtain ⟨h1, h2⟩ := pubLoop_success_run cfg twSend hE hP
    (rankSort cfg.env cfg.now collected) 0 0 st0 [] [] [] (Nat.zero_le _)
  have hpub : (mainPublish cfg twSend collected st0).published
      = (rankSort cfg.env cfg.now collected).take cfg.cap := by
    unfold mainPublish
    rw [h1]
    simp
  have hsorted : List.Sorted (rankRel cfg.env cfg.now) (rankSort cfg.env cfg.now collected) :=
    List.sorted_insertionSort (rankRel cfg.env cfg.now) collected
  refine ⟨hpub, ?_, ?_, ?_, ?_⟩
  · unfold mainPublish
    rw [h2]
    omega
  · rw [hpub, List.length_take]
    omega
  · rw [hpub]
    exact List.Pairwise.sublist (List.take_sublist _ _) hsorted
  · rw [hpub]
    intro x hx y hy
    have hps : List.Pairwise (rankRel cfg.env cfg.now)
        ((rankSort cfg.env cfg.now collected).take cfg.cap
          ++ (rankSort cfg.env cfg.now collected).drop cfg.cap) := by
      rw [List.take_append_drop]
      exact hsorted
    exact (List.pairwise_append.mp hps).2.2 x hx y hy

/-- Witness for C3: three dated entries, cap two. -/
theorem claim3_cap_enforcement_witness :
    (mainPublish (cfgW 2 (fun _ => false) (fun _ => true)) (fun _ => none)
        [entD "d1", entD "d2", entD "d3"] stEmpty).posted
      = (cfgW 2 (fun _ => false) (fun _ => true)).cap :=
  (claim3_cap_enforcement (cfgW 2 (fun _ => false) (fun _ => true)) (fun _ => none)
      [entD "d1", entD "d2", entD "d3"] stEmpty (fun _ => rfl) (fun _ => rfl) (by decide)).2.1

/-! Claim C2: commit if and only if the primary publish succeeded. -/

/-- C2: in the publishing loop the published entries are exactly the
attempted entries whose primary publish succeeded; the store gains exactly
their fingerprints, so a failed item whose fingerprint was absent stays
absent; and a primary failure makes the loop continue with the next item,
leaving the store untouched. -/
theorem claim2_commit_iff_primary_success (cfg : RunCfg) (twSend : String → Option String)
    (collected : List Entry) (st0 : DedupState) :
    ((mainPublish cfg twSend collected st0).published
        = ((mainPublish cfg twSend collected st0).attempted).filter (primaryOk cfg))
  ∧ ((mainPublish cfg twSend collected st0).store.seen
      = st0.seen ∪ (((mainPublish cfg twSend collected st0).published).map
          DedupAgent.fingerprint).toFinset)
  ∧ (∀ e ∈ (mainPublish cfg twSend collected st0).attempted, primaryOk cfg e = true →
        DedupAgent.fingerprint e ∈ (mainPublish cfg twSend collected st0).store.seen)
  ∧ (∀ e ∈ (mainPublish cfg twSend collected st0).attempted, primaryOk cfg e = false →
        DedupAgent.fingerprint e ∉ st0.seen →
        (∀ x ∈ (mainPublish cfg twSend collected st0).published,
          DedupAgent.fingerprint x ≠ DedupAgent.fingerprint e) →
        DedupAgent.fingerprint e ∉ (mainPublish cfg twSend collected st0).store.seen)
  ∧ (∀ (e : Entry) (rest : List Entry) (k posted : Nat) (st : DedupState)
      (att pub : List Entry) (twl : List TwResult),
      cfg.elapsed k = false → posted < cfg.cap → primaryOk cfg e = false →
      pubLoop cfg twSend (e :: rest) k posted st att pub twl
        = pubLoop cfg twSend rest (k + 1) posted st (att ++ [e]) pub twl) := by
  obtain ⟨n, ha, hp, hs, hc⟩ := pubLoop_spec cfg twSend
    (rankSort cfg.env cfg.now collected) 0 0 st0 [] [] []
  simp only [List.nil_append] at ha hp
  unfold mainPublish
  refine ⟨?_, ?_, ?_, ?_, ?_⟩
  · rw [hp, ha]
  · rw [hs, hp]
  · intro e he hok
    rw [ha] at he
    rw [hs]
    apply Finset.mem_union_right
    rw [List.mem_toFinset]
    exact List.mem_map_of_mem _ (List.mem_filter.mpr ⟨he, hok⟩)
  · intro e he hok hn0 hnp
    rw [hp] at hnp
    rw [hs]
    intro hmem
    rcases Finset.mem_union.mp hmem with hL | hR
    · exact hn0 hL
    · rw [List.mem_toFinset] at hR
      obtain ⟨x, hx, hfx⟩ := List.mem_map.mp hR
      exact hnp x hx hfx
  · intro e rest k posted st att pub twl hEk hlt hpf
    simp [pubLoop, hEk, Nat.not_le.mpr hlt, hpf]

/-- Witness for C2: a failing primary publish makes the loop continue with
the next item and an unchanged store. -/
theorem claim2_commit_iff_primary_success_witness :
    pubLoop (cfgW 6 (fun _ => false) (fun _ => false)) (fun _ => none)
        [entD "d1"] 0 0 stEmpty [] [] []
      = pubLoop (cfgW 6 (fun _ => false) (fun _ => false)) (fun _ => none)
        [] 1 0 stEmpty [entD "d1"] [] [] :=
  (claim2_commit_iff_primary_success (cfgW 6 (fun _ => false) (fun _ => false))
      (fun _ => none) [] stEmpty).2.2.2.2
    (entD "d1") [] 0 0 stEmpty [] [] [] rfl (by decide) rfl

/-! Claim C10: the Twitter outcome never influences commit or cap. -/

/-- The loop result, apart from the Twitter log, does not depend on the
Twitter transport. -/
theorem pubLoop_tw_irrel (cfg : RunCfg) (tw1 tw2 : String → Option String) :
    ∀ (l : List Entry) (k posted : Nat) (st : DedupState) (att pub : List Entry)
      (twl1 twl2 : List TwResult),
      (pubLoop cfg tw1 l k posted st att pub twl1).posted
          = (pubLoop cfg tw2 l k posted st att pub twl2).posted
    ∧ (pubLoop cfg tw1 l k posted st att pub twl1).store
          = (pubLoop cfg tw2 l k posted st att pub twl2).store
    ∧ (pubLoop cfg tw1 l k posted st att pub twl1).attempted
          = (pubLoop cfg tw2 l k posted st att pub twl2).attempted
    ∧ (pubLoop cfg tw1 l k posted st att pub twl1).published
          = (pubLoop cfg tw2 l k posted st att pub twl2).published := by
  intro l
  induction l with
  | nil =>
    intro k posted st att pub twl1 twl2
    exact ⟨rfl, rfl, rfl, rfl⟩
  | cons e rest ih =>
    intro k posted st att pub twl1 twl2
    by_cases h1 : cfg.elapsed k = true
    · simp [pubLoop, h1]
    by_cases h2 : cfg.cap ≤ posted
    · simp [pubLoop, h1, h2]
    by_cases h3 : primaryOk cfg e = true
    · have s1 : pubLoop cfg tw1 (e :: rest) k posted st att pub twl1
          = pubLoop cfg tw1 rest (k + 1) (posted + 1) (DedupAgent.mark (cfg.saveOk k) st e)
              (att ++ [e]) (pub ++ [e]) (twl1 ++ twCall cfg tw1 e) := by
        simp [pubLoop, h1, h2, h3]
      have s2 : pubLoop cfg tw2 (e :: rest) k posted st att pub twl2
          = pubLoop cfg tw2 rest (k + 1) (posted + 1) (DedupAgent.mark (cfg.saveOk k) st e)
              (att ++ [e]) (pub ++ [e]) (twl2 ++ twCall cfg tw2 e) := by
        simp [pubLoop, h1, h2, h3]
      rw [s1, s2]
      exact ih (k + 1) (posted + 1) (DedupAgent.mark (cfg.saveOk k) st e)
        (att ++ [e]) (pub ++ [e]) (twl1 ++ twCall cfg tw1 e) (twl2 ++ twCall cfg tw2 e)
    · have h3f : primaryOk cfg e = false := by
        cases hb : primaryOk cfg e with
        | true => exact absurd hb h3
        | false => rfl
      have s1 : pubLoop cfg tw1 (e :: rest) k posted st att pub twl1
          = pubLoop cfg tw1 rest (k + 1) posted st (att ++ [e]) pub twl1 := by
        simp [pubLoop, h1, h2, h3f]
      have s2 : pubLoop cfg tw2 (e :: rest) k posted st att pub twl2
          = pubLoop cfg tw2 rest (k + 1) posted st (att ++ [e]) pub twl2 := by
        simp [pubLoop, h1, h2, h3f]
      rw [s1, s2]
      exact ih (k + 1) posted st (att ++ [e]) pub twl1 twl2

/-- C10: the Twitter transport's behaviour (failure, skip, or success) never
changes which items are committed or counted; an item whose primary publish
succeeds is committed to the store and counts toward the cap, and the counter
equals the number of published items. -/
theorem claim10_twitter_outcome_isolated (cfg : RunCfg) (tw1 tw2 : String → Option String)
    (collected : List Entry) (st0 : DedupState) :
    ((mainPublish cfg tw1 collected st0).posted = (mainPublish cfg tw2 collected st0).posted)
  ∧ ((mainPublish cfg tw1 collected st0).store = (mainPublish cfg tw2 collected st0).store)
  ∧ ((mainPublish cfg tw1 collected st0).attempted = (mainPublish cfg tw2 collected st0).attempted)
  ∧ ((mainPublish cfg tw1 collected st0).published = (mainPublish cfg tw2 collected st0).published)
  ∧ ((mainPublish cfg tw1 collected st0).posted
      = ((mainPublish cfg tw1 collected st0).published).length)
  ∧ (∀ e ∈ (mainPublish cfg tw1 collected st0).attempted, primaryOk cfg e = true →
        DedupAgent.fingerprint e ∈ (mainPublish cfg tw1 collected st0).store.seen
        ∧ e ∈ (mainPublish cfg tw1 collected st0).published) := by
  obtain ⟨hi1, hi2, hi3, hi4⟩ := pubLoop_tw_irrel cfg tw1 tw2
    (rankSort cfg.env cfg.now collected) 0 0 st0 [] [] [] []
  obtain ⟨n, ha, hp, hs, hc⟩ := pubLoop_spec cfg tw1
    (rankSort cfg.env cfg.now collected) 0 0 st0 [] [] []
  simp only [List.nil_append] at ha hp
  unfold mainPublish
  refine ⟨hi1, hi2, hi3, hi4, ?_, ?_⟩
  · rw [hc, hp]
    simp
  · intro e he hok
    rw [ha] at he
    constructor
    · rw [hs]
      apply Finset.mem_union_right
      rw [List.mem_toFinset]
      exact List.mem_map_of_mem _ (List.mem_filter.mpr ⟨he, hok⟩)
    · rw [hp]
      exact List.mem_filter.mpr ⟨he, hok⟩

/-- Witness for C10: the published count is the same whether the Twitter
transport succeeds or raises. -/
theorem claim10_twitter_outcome_isolated_witness :
    (mainPublish (cfgW 6 (fun _ => false) (fun _ => true)) (fun _ => none)
        [entD "d1"] stEmpty).posted
      = (mainPublish (cfgW 6 (fun _ => false) (fun _ => true)) (fun _ => some "boom")
        [entD "d1"] stEmpty).posted :=
  (claim10_twitter_outcome_isolated (cfgW 6 (fun _ => false) (fun _ => true))
      (fun _ => none) (fun _ => some "boom") [entD "d1"] stEmpty).1

end FiNews
